import Mathlib

/-
Verification of the habit-tracking bot core (src/bot.py) against its
natural-language specification.

Shallow embedding conventions:
* Calendar dates are integer day numbers (type `Int`) with the epoch
  chosen on a Monday, so Python's `date.isoweekday()` becomes
  `d % 7 + 1` (ISO weekday 1 = Monday .. 7 = Sunday).  Adding 1 to a day
  number advances the weekday cyclically, exactly as in the Gregorian
  calendar; fixing the epoch on a Monday is without loss of generality.
* SQLite tables become Lean lists of records in rowid (insertion) order;
  an SQL SELECT that fetches one row returns the first list element that
  matches, INSERT appends at the end, DELETE filters.
* A task's `days` csv column ("1,3,5") is modelled already parsed, as the
  list of ISO weekday numbers the code obtains via
  `set(int(x) for x in days_csv.split(","))`.
* Wall-clock times of day are minutes since midnight; Python's
  `datetime.combine(today, t) + delta` followed by `.timetz()` is
  `(minutes + delta) % 1440` (Int emod, non-negative like Python's `%`).
-/

/-- Python `date.isoweekday()` under the day-number encoding (epoch on a Monday). -/
def isoweekday (d : Int) : Int := d % 7 + 1

/-- Source `iso_week_monday` (bot.py line 95): `d - timedelta(days=d.isoweekday() - 1)`. -/
def iso_week_monday (d : Int) : Int := d - (isoweekday d - 1)

/-- Row of the `users` table (bot.py init_db). -/
structure UserRow where
  user_id : Nat
  chat_id : Nat
deriving DecidableEq

/-- Row of the `tasks` table; `days` models the parsed csv of ISO weekdays,
`hh`/`mm` model the parsed "HH:MM" `time_str`. -/
structure TaskRow where
  id : Nat
  user_id : Nat
  name : String
  hh : Int
  mm : Int
  days : List Int
deriving DecidableEq

/-- Row of the `completions` table. -/
structure Completion where
  task_id : Nat
  done_date : Int
deriving DecidableEq

/-- Row of the `leaderboard` table. -/
structure LBEntry where
  user_id : Nat
  week_start : Int
  points : Int
deriving DecidableEq

/-- The persistent store: the four tables plus `timezones` (user id, tz name). -/
structure DB where
  users : List UserRow
  tasks : List TaskRow
  completions : List Completion
  leaderboard : List LBEntry
  timezones : List (Nat × String)
deriving DecidableEq

/-- Source `upsert_leaderboard_points` (bot.py lines 117-128): update the first
row matching (user_id, week_start), else insert a fresh row with the delta. -/
def upsert_leaderboard_points : List LBEntry → Nat → Int → Int → List LBEntry
  | [], uid, ws, delta => [⟨uid, ws, delta⟩]
  | e :: rest, uid, ws, delta =>
      if e.user_id = uid ∧ e.week_start = ws then
        ⟨e.user_id, e.week_start, e.points + delta⟩ :: rest
      else
        e :: upsert_leaderboard_points rest uid ws delta

/-- Query `SELECT points FROM leaderboard WHERE user_id=? AND week_start=?`,
defaulting to 0 when no row exists (as the source does). -/
def lb_points : List LBEntry → Nat → Int → Int
  | [], _, _ => 0
  | e :: rest, uid, ws =>
      if e.user_id = uid ∧ e.week_start = ws then e.points else lb_points rest uid ws

/-- Query `SELECT ... FROM tasks WHERE id=?` (first matching row). -/
def find_task (ts : List TaskRow) (tid : Nat) : Option TaskRow :=
  ts.find? fun t => t.id == tid

/-- Query `SELECT chat_id FROM users WHERE user_id=?` (first matching row). -/
def find_user (us : List UserRow) (uid : Nat) : Option UserRow :=
  us.find? fun u => u.user_id == uid

/-- Query `SELECT 1 FROM completions WHERE task_id=? AND done_date=?` as a Bool. -/
def completionExists (cs : List Completion) (tid : Nat) (d : Int) : Bool :=
  cs.any fun c => c.task_id == tid && c.done_date == d

inductive MarkDoneResult
  | Awarded
  | AlreadyMarked
deriving DecidableEq

/-- Source `mark_done_cb` (bot.py lines 316-349), store effect only.
If a completion for (task_id, today) exists the handler answers with the
"already marked" UI and returns with no store mutation.  Otherwise it inserts
the completion, looks up the owning user of the task and upserts +10 points
for `iso_week_monday today`.  When the task row is missing the source crashes
on `row[0]` before `conn.commit()`, so nothing is persisted: modelled as
`none`. -/
def mark_done (db : DB) (tid : Nat) (today : Int) : Option (MarkDoneResult × DB) :=
  if completionExists db.completions tid today then
    some (MarkDoneResult.AlreadyMarked, db)
  else
    match find_task db.tasks tid with
    | none => none
    | some t =>
        some (MarkDoneResult.Awarded,
          { db with
              completions := db.completions ++ [⟨tid, today⟩],
              leaderboard :=
                upsert_leaderboard_points db.leaderboard t.user_id
                  (iso_week_monday today) 10 })

/-- Source `delete_task_cb` (bot.py lines 674-685): `DELETE FROM tasks WHERE id=?`.
No job is unregistered and completions/leaderboard are untouched. -/
def delete_task (db : DB) (tid : Nat) : DB :=
  { db with tasks := db.tasks.filter fun t => !(t.id == tid) }

/-- The spec's Occurrence Calculator predicate (spec section 4.1):
`IsDue(task, date)` iff `date.isoWeekday() ∈ task.weekdays`. -/
abbrev IsDue (days : List Int) (d : Int) : Prop := isoweekday d ∈ days

/-- Source `weekly_bonus_and_summary` lines 522-526: the list comprehension
`[(prev_week_start + i).isoformat() for i in range(7) if (...).isoweekday() in days]`. -/
def sched_dates (pws : Int) (days : List Int) : List Int :=
  ((List.range 7).map fun i => pws + (i : Int)).filter fun d =>
    decide (isoweekday d ∈ days)

/-- Source `progress` lines 393 and 401: `week_dates` restricted to the days
whose ISO weekday is in the task's weekday set. -/
def progress_scheduled_dates (ws : Int) (days : List Int) : List Int :=
  ((List.range 7).map fun i => ws + (i : Int)).filter fun d =>
    decide (isoweekday d ∈ days)

/-- Source `weekly_bonus_and_summary` lines 527-531: the Python set of
completion dates of a task with `done_date BETWEEN lo AND hi` (inclusive);
`dedup` models the set construction, the code only consumes its size. -/
def done_dates (cs : List Completion) (tid : Nat) (lo hi : Int) : List Int :=
  (((cs.filter fun c =>
      c.task_id == tid && decide (lo ≤ c.done_date) && decide (c.done_date ≤ hi)).map
        fun c => c.done_date)).dedup

/-- Source line 534: `base = done_count * 10`. -/
def task_base (cs : List Completion) (pws : Int) (tid : Nat) : Int :=
  (done_dates cs tid pws (pws + 6)).length * 10

/-- Source line 537: `bonus = 30 if sched_count > 0 and done_count == sched_count else 0`.
Note that the source compares the two counts, not the two sets of dates. -/
def task_bonus (cs : List Completion) (pws : Int) (tid : Nat) (days : List Int) : Int :=
  if 0 < (sched_dates pws days).length ∧
      (done_dates cs tid pws (pws + 6)).length = (sched_dates pws days).length
  then 30 else 0

/-- Query `SELECT id, name, days FROM tasks WHERE user_id=?`. -/
def user_tasks (db : DB) (uid : Nat) : List TaskRow :=
  db.tasks.filter fun t => t.user_id == uid

/-- The `bonus_total` accumulated over one user's tasks in
`weekly_bonus_and_summary` (lines 516-538). -/
def user_bonus_total (db : DB) (uid : Nat) (pws : Int) : Int :=
  ((user_tasks db uid).map fun t => task_bonus db.completions pws t.id t.days).sum

/-- Store effect the TEXT of one iteration of the per-user loop of
`weekly_bonus_and_summary` specifies (bot.py lines 507-560): users with no
tasks are skipped (`continue`), and `upsert_leaderboard_points` runs exactly
when `bonus_total` is nonzero (Python truthiness of the int).  The summary
message is delivery only and mutates nothing.  `pws` is the `prev_week_start`
lines 498-499 intend to compute.  CAUTION: as deployed this loop is
unreachable — line 498 reads the unbound name `update`, so the function
raises NameError on entry (see `weekly_bonus_and_summary_run` for the
deployed behavior); this definition renders the would-be store effect of the
loop body, used to analyse the scoring expressions it contains. -/
def settle_user (db : DB) (uid : Nat) (pws : Int) : DB :=
  if (user_tasks db uid).isEmpty then db
  else if user_bonus_total db uid pws ≠ 0 then
    { db with
        leaderboard :=
          upsert_leaderboard_points db.leaderboard uid pws (user_bonus_total db uid pws) }
  else db

/-- Would-be store effect of the whole settlement loop (the per-user loop
over the rows of `SELECT user_id, chat_id, ... FROM users` fetched once),
again analysing the loop body that the line-498 NameError makes unreachable
as deployed; the deployed behavior is `weekly_bonus_and_summary_run`. -/
def weekly_bonus_and_summary (db : DB) (pws : Int) : DB :=
  (db.users.map fun u => u.user_id).foldl (fun d uid => settle_user d uid pws) db

/-- Outcome of invoking the deployed weekly settlement coroutine. -/
inductive SettlementOutcome
  | nameErrorCrash
deriving DecidableEq

/-- Source `weekly_bonus_and_summary` (bot.py lines 491-560) as deployed.
Its first executed statement, line 498, evaluates
`today_for_user(update.effective_user.id)` where `update` is neither a
parameter of the function nor a module global, so every invocation raises
NameError there — before the database connection at line 502 is opened: no
store row is read or written on any run, and the bonus upsert at lines
546-547 is never reached. -/
def weekly_bonus_and_summary_run (db : DB) : SettlementOutcome × DB :=
  (SettlementOutcome.nameErrorCrash, db)

/-- Outcome of a `send_task_reminder` firing (bot.py lines 566-590).  The
function only issues SELECTs before either returning silently (user row or
task row missing) or — once both lookups succeed — evaluating line 582,
`today_for_user(update.effective_user.id)`, where `update` is an unbound
name: a NameError is raised before any message is composed or sent. -/
inductive ReminderEffect
  | silentNoop
  | nameErrorCrash
deriving DecidableEq

/-- Source `send_task_reminder` (bot.py lines 566-590); the function performs
no store mutation in any branch. -/
def send_task_reminder (db : DB) (user_id : Nat) (task_id : Nat) : ReminderEffect :=
  match find_user db.users user_id with
  | none => ReminderEffect.silentNoop
  | some _ =>
      match find_task db.tasks task_id with
      | none => ReminderEffect.silentNoop
      | some _ => ReminderEffect.nameErrorCrash

/-- Sample task "read", due Mon/Wed/Fri at 07:00, owned by user 10. -/
def tW : TaskRow := ⟨1, 10, "read", 7, 0, [1, 3, 5]⟩

/-- Sample store: one user (id 10, chat 99) owning task `tW`, nothing else. -/
def dbW : DB := ⟨[⟨10, 99⟩], [tW], [], [], []⟩

/-- Sample task due only on Monday (ISO weekday 1). -/
def tMon : TaskRow := ⟨1, 10, "mon", 9, 0, [1]⟩

/-- Store with task `tMon` and a single completion recorded on day 1, the
Tuesday of the week starting at day 0. -/
def dbMon : DB := ⟨[⟨10, 99⟩], [tMon], [⟨1, 1⟩], [], []⟩

/-- Store `dbW` after marking task 1 done on day 2: the completion row is inserted
and the leaderboard holds 10 points for the week starting at day 0. -/
def dbWdone : DB := ⟨[⟨10, 99⟩], [tW], [⟨1, 2⟩], [⟨10, 0, 10⟩], []⟩

/- Helper lemmas (shared; not claim theorems). -/

lemma lb_points_upsert (lb : List LBEntry) (uid : Nat) (ws : Int) (delta : Int) :
    lb_points (upsert_leaderboard_points lb uid ws delta) uid ws
      = lb_points lb uid ws + delta := by
  induction lb with
  | nil => simp [upsert_leaderboard_points, lb_points]
  | cons e rest ih =>
      by_cases h : e.user_id = uid ∧ e.week_start = ws
      · simp [upsert_leaderboard_points, lb_points, h]
      · simp [upsert_leaderboard_points, lb_points, h, ih]

lemma mark_done_already (db : DB) (tid : Nat) (d : Int)
    (h : completionExists db.completions tid d = true) :
    mark_done db tid d = some (MarkDoneResult.AlreadyMarked, db) := by
  simp [mark_done, h]

lemma mark_done_fresh (db : DB) (tid : Nat) (d : Int) (t : TaskRow)
    (hfind : find_task db.tasks tid = some t)
    (hnew : completionExists db.completions tid d = false) :
    mark_done db tid d = some (MarkDoneResult.Awarded,
      { db with
          completions := db.completions ++ [⟨tid, d⟩],
          leaderboard :=
            upsert_leaderboard_points db.leaderboard t.user_id (iso_week_monday d) 10 }) := by
  simp [mark_done, hnew, hfind]

lemma completionExists_append_self (cs : List Completion) (tid : Nat) (d : Int) :
    completionExists (cs ++ [⟨tid, d⟩]) tid d = true := by
  simp [completionExists, List.any_append]

lemma week_map_eq (pws : Int) :
    ((List.range 7).map fun i => pws + (i : Int))
      = [pws, pws + 1, pws + 2, pws + 3, pws + 4, pws + 5, pws + 6] := by
  simp [List.range_succ]

lemma settle_user_tasks (db : DB) (uid : Nat) (pws : Int) :
    (settle_user db uid pws).tasks = db.tasks := by
  unfold settle_user
  split
  · rfl
  · split <;> rfl

lemma settle_user_completions (db : DB) (uid : Nat) (pws : Int) :
    (settle_user db uid pws).completions = db.completions := by
  unfold settle_user
  split
  · rfl
  · split <;> rfl

lemma user_tasks_congr (db db' : DB) (uid : Nat) (h : db'.tasks = db.tasks) :
    user_tasks db' uid = user_tasks db uid := by
  unfold user_tasks
  rw [h]

lemma user_bonus_total_congr (db db' : DB) (uid : Nat) (pws : Int)
    (h1 : db'.tasks = db.tasks) (h2 : db'.completions = db.completions) :
    user_bonus_total db' uid pws = user_bonus_total db uid pws := by
  unfold user_bonus_total user_tasks
  rw [h1, h2]

lemma user_bonus_total_empty (db : DB) (uid : Nat) (pws : Int)
    (h : (user_tasks db uid).isEmpty = true) :
    user_bonus_total db uid pws = 0 := by
  unfold user_bonus_total
  rw [List.isEmpty_iff.mp h]
  rfl

lemma settle_user_noop_of_empty (db : DB) (uid : Nat) (pws : Int)
    (he : (user_tasks db uid).isEmpty = true) :
    settle_user db uid pws = db := by
  unfold settle_user
  simp [he]

lemma settle_user_noop_of_zero (db : DB) (uid : Nat) (pws : Int)
    (hb : user_bonus_total db uid pws = 0) :
    settle_user db uid pws = db := by
  unfold settle_user
  simp [hb]

lemma settle_user_eq_upsert (db : DB) (uid : Nat) (pws : Int)
    (he : (user_tasks db uid).isEmpty = false)
    (hb : user_bonus_total db uid pws ≠ 0) :
    settle_user db uid pws =
      { db with
          leaderboard :=
            upsert_leaderboard_points db.leaderboard uid pws
              (user_bonus_total db uid pws) } := by
  unfold settle_user
  simp [he, hb]

/-- Claim C1 (code_bug evidence): evaluation of the settlement scoring at the
failing input.  Task `tMon` is due only on Monday of the week starting at day
0, and its only completion is dated day 1 (that week's Tuesday), so the set of
completion dates {Tue} differs from the set of due dates {Mon}; yet the source
compares only the two counts (1 = 1), awards `bonus = 30`, and the settlement
pass persists the 30 bonus points, while the claim (and the function's own
docstring) requires bonus = 0 here.  The base part of the claim does hold:
`base = 10 * |doneDates| = 10`. -/
theorem weekly_bonus_uses_counts_not_sets :
    sched_dates 0 tMon.days = [0] ∧
    done_dates dbMon.completions tMon.id 0 6 = [1] ∧
    ¬ (done_dates dbMon.completions tMon.id 0 6 = sched_dates 0 tMon.days) ∧
    task_base dbMon.completions 0 tMon.id = 10 ∧
    task_bonus dbMon.completions 0 tMon.id tMon.days = 30 ∧
    lb_points (weekly_bonus_and_summary dbMon 0).leaderboard 10 0 = 30 := by
  decide

/-- Claim C2: running the weekly settlement twice over the same previous week
does not double the bonus — for every user and week, the leaderboard total
after the second run equals the total after the first run.  The invariant
holds on the deployed code, though degenerately: every invocation of
`weekly_bonus_and_summary` raises NameError at its first statement (bot.py
line 498 reads the unbound name `update`) before the database connection is
opened, so each run leaves the store untouched and in particular never
reaches the bonus upsert at lines 546-547.  (The unreachable loop body itself
has no already-settled guard; its would-be additive behavior is recorded
separately below.) -/
theorem weekly_settlement_twice_same_total (db : DB) (uid : Nat) (ws : Int) :
    weekly_bonus_and_summary_run db = (SettlementOutcome.nameErrorCrash, db) ∧
    lb_points
        (weekly_bonus_and_summary_run
          (weekly_bonus_and_summary_run db).2).2.leaderboard uid ws
      = lb_points (weekly_bonus_and_summary_run db).2.leaderboard uid ws :=
  ⟨rfl, rfl⟩

/-- Supplementary (not a deployed behavior): the settlement loop body that the
line-498 NameError makes unreachable has no "already settled" guard, and the
upsert at lines 546-547 is additive — executing its per-user store effect a
second time over the same week would add the user's `bonus_total` again (the
bonus total is unchanged between runs, since the loop never modifies tasks or
completions); had the crash been repaired, non-duplication would rely solely
on the single Monday 00:01 trigger registration. -/
theorem settle_user_run_twice_adds_bonus_again (db : DB) (uid : Nat) (pws : Int) :
    lb_points (settle_user (settle_user db uid pws) uid pws).leaderboard uid pws
      = lb_points (settle_user db uid pws).leaderboard uid pws
        + user_bonus_total db uid pws := by
  have ht := settle_user_tasks db uid pws
  have hc := settle_user_completions db uid pws
  have hub : user_bonus_total (settle_user db uid pws) uid pws
      = user_bonus_total db uid pws :=
    user_bonus_total_congr db (settle_user db uid pws) uid pws ht hc
  have hut : user_tasks (settle_user db uid pws) uid = user_tasks db uid :=
    user_tasks_congr db (settle_user db uid pws) uid ht
  by_cases he : (user_tasks db uid).isEmpty = true
  · have h0 := user_bonus_total_empty db uid pws he
    have e1 := settle_user_noop_of_empty db uid pws he
    simp only [e1, h0, add_zero]
  · have he' : (user_tasks db uid).isEmpty = false := by
      simpa using he
    by_cases hb : user_bonus_total db uid pws = 0
    · have e1 := settle_user_noop_of_zero db uid pws hb
      simp only [e1, hb, add_zero]
    · have e2 := settle_user_eq_upsert (settle_user db uid pws) uid pws
        (by rw [hut]; exact he') (by rw [hub]; exact hb)
      rw [e2]
      simp only [hub]
      exact lb_points_upsert _ uid pws _

/-- Claim C3: the MarkDone contract.  If a completion for (task id, date)
already exists, the handler returns AlreadyMarked and leaves the store
untouched; otherwise (for an existing task) it appends the completion row,
adds exactly 10 points to the owning user's leaderboard entry for
`iso_week_monday date`, returns Awarded, and an immediately repeated call
returns AlreadyMarked on the unchanged store — so two successive calls add 10
points in total, not 20. -/
theorem mark_done_contract (db : DB) (tid : Nat) (d : Int) (t : TaskRow)
    (hfind : find_task db.tasks tid = some t) :
    (completionExists db.completions tid d = true →
        mark_done db tid d = some (MarkDoneResult.AlreadyMarked, db)) ∧
    (completionExists db.completions tid d = false →
      ∃ db1 : DB,
        mark_done db tid d = some (MarkDoneResult.Awarded, db1) ∧
        db1.completions = db.completions ++ [⟨tid, d⟩] ∧
        mark_done db1 tid d = some (MarkDoneResult.AlreadyMarked, db1) ∧
        lb_points db1.leaderboard t.user_id (iso_week_monday d)
          = lb_points db.leaderboard t.user_id (iso_week_monday d) + 10) := by
  constructor
  · intro h
    exact mark_done_already db tid d h
  · intro h
    refine ⟨_, mark_done_fresh db tid d t hfind h, rfl, ?_, ?_⟩
    · exact mark_done_already _ tid d (completionExists_append_self db.completions tid d)
    · exact lb_points_upsert db.leaderboard t.user_id (iso_week_monday d) 10

/-- Witness for C3 at a concrete input: user 10's task 1 on date 2 (a
Wednesday, scheduled).  Both hypotheses of `mark_done_contract` hold by
computation. -/
theorem mark_done_contract_witness :
    ∃ db1 : DB,
      mark_done dbW 1 2 = some (MarkDoneResult.Awarded, db1) ∧
      db1.completions = dbW.completions ++ [⟨1, 2⟩] ∧
      mark_done db1 1 2 = some (MarkDoneResult.AlreadyMarked, db1) ∧
      lb_points db1.leaderboard tW.user_id (iso_week_monday 2)
        = lb_points dbW.leaderboard tW.user_id (iso_week_monday 2) + 10 :=
  (mark_done_contract dbW 1 2 tW rfl).2 rfl

/-- Claim C5: marking a task done on a date whose ISO weekday is NOT in the
task's weekday set is permitted and behaves exactly as for a scheduled date:
the completion row is appended and 10 points are awarded on the owner's
leaderboard entry for that date's week.  (`mark_done_cb` never consults the
task's weekday set.) -/
theorem mark_done_off_schedule (db : DB) (tid : Nat) (d : Int) (t : TaskRow)
    (hfind : find_task db.tasks tid = some t)
    (hnew : completionExists db.completions tid d = false)
    (hoff : ¬ IsDue t.days d) :
    ∃ db1 : DB,
      mark_done db tid d = some (MarkDoneResult.Awarded, db1) ∧
      db1.completions = db.completions ++ [⟨tid, d⟩] ∧
      lb_points db1.leaderboard t.user_id (iso_week_monday d)
        = lb_points db.leaderboard t.user_id (iso_week_monday d) + 10 := by
  refine ⟨_, mark_done_fresh db tid d t hfind hnew, rfl, ?_⟩
  exact lb_points_upsert db.leaderboard t.user_id (iso_week_monday d) 10

/-- Witness for C5: date 3 is a Thursday (ISO weekday 4), not in task `tW`'s
weekday set {1,3,5}, yet marking done succeeds and awards the 10 points. -/
theorem mark_done_off_schedule_witness :
    ∃ db1 : DB,
      mark_done dbW 1 3 = some (MarkDoneResult.Awarded, db1) ∧
      db1.completions = dbW.completions ++ [⟨1, 3⟩] ∧
      lb_points db1.leaderboard tW.user_id (iso_week_monday 3)
        = lb_points dbW.leaderboard tW.user_id (iso_week_monday 3) + 10 :=
  mark_done_off_schedule dbW 1 3 tW rfl rfl (by decide)

/-- Claim C6: the due-date computation.  The progress command (lines 400-401)
and the settlement (lines 522-526) compute the same list; the list is strictly
ascending; and a date belongs to it exactly when it lies in the inclusive week
range `[pws, pws + 6]` and `IsDue` holds, i.e. its ISO weekday is a member of
the task's weekday set.  Determinism/restartability is definitional: the
computation is a pure function of its arguments. -/
theorem due_dates_week_spec (pws : Int) (days : List Int) :
    progress_scheduled_dates pws days = sched_dates pws days ∧
    List.Pairwise (fun a b => a < b) (sched_dates pws days) ∧
    ∀ d : Int, d ∈ sched_dates pws days ↔ (pws ≤ d ∧ d ≤ pws + 6 ∧ IsDue days d) := by
  refine ⟨rfl, ?_, ?_⟩
  · refine List.Pairwise.filter _ ?_
    rw [week_map_eq]
    simp only [List.pairwise_cons, List.mem_cons, List.not_mem_nil, or_false,
      List.Pairwise.nil]
    refine ⟨?_, ?_, ?_, ?_, ?_, ?_, fun a h => h.elim, trivial⟩ <;>
      (rintro a (rfl | rfl | rfl | rfl | rfl | rfl | rfl) <;> omega)
  · intro d
    unfold sched_dates
    rw [List.mem_filter, week_map_eq]
    simp only [List.mem_cons, List.not_mem_nil, or_false, decide_eq_true_eq]
    constructor
    · rintro ⟨hmem, hdue⟩
      rcases hmem with rfl | rfl | rfl | rfl | rfl | rfl | rfl <;>
        exact ⟨by omega, by omega, hdue⟩
    · rintro ⟨h1, h2, hdue⟩
      exact ⟨by omega, hdue⟩

/-- Witness for C6: day 3 of the week starting at day 0 is a Thursday
(ISO weekday 4) and is returned for a task due on weekday 4. -/
theorem due_dates_week_spec_witness :
    (3 : Int) ∈ sched_dates 0 [4] :=
  ((due_dates_week_spec 0 [4]).2.2 3).mpr (by decide)

lemma find_task_delete (db : DB) (tid : Nat) :
    find_task (delete_task db tid).tasks tid = none := by
  unfold find_task delete_task
  rw [List.find?_eq_none]
  intro x hx
  simp only [List.mem_filter] at hx
  simpa using hx.2

/-- Claim C8: a reminder firing for a task that no longer exists degrades to a
silent no-op.  After `delete_task` removed the task row, `send_task_reminder`
for that task id returns silently whatever the rest of the store holds (the
task lookup fails); likewise a missing user row yields a silent return.  In
both branches the source only executes SELECTs: no message is sent, nothing
is mutated, and no exception is raised. -/
theorem send_task_reminder_noop (db : DB) (uid tid : Nat) :
    send_task_reminder (delete_task db tid) uid tid = ReminderEffect.silentNoop ∧
    (find_user db.users uid = none →
        send_task_reminder db uid tid = ReminderEffect.silentNoop) := by
  constructor
  · rcases h : find_user (delete_task db tid).users uid with _ | u
    · simp [send_task_reminder, h]
    · simp [send_task_reminder, h, find_task_delete]
  · intro h
    simp [send_task_reminder, h]

/-- Witness for C8: firing the reminder for task 1 right after deleting it
from the sample store, and firing for an unknown user id, both no-op. -/
theorem send_task_reminder_noop_witness :
    send_task_reminder (delete_task dbW 1) 10 1 = ReminderEffect.silentNoop ∧
    send_task_reminder dbW 404 1 = ReminderEffect.silentNoop :=
  ⟨(send_task_reminder_noop dbW 10 1).1, (send_task_reminder_noop dbW 404 1).2 rfl⟩

/-- Claim C9: at most one completion per (task id, done date) pair.  Taking
"no two entries with the same task id and date" as Nodup of the projected
pairs: `mark_done` — the only operation that inserts completions — preserves
the invariant (it checks `completionExists` before inserting and the
already-marked branch mutates nothing), while `delete_task` and the weekly
settlement leave the completions table unchanged. -/
theorem completions_unique_invariant (db : DB) (tid uid : Nat) (d pws : Int)
    (r : MarkDoneResult) (db1 : DB)
    (hinv : (db.completions.map fun c => (c.task_id, c.done_date)).Nodup) :
    (mark_done db tid d = some (r, db1) →
        (db1.completions.map fun c => (c.task_id, c.done_date)).Nodup) ∧
    (delete_task db tid).completions = db.completions ∧
    (settle_user db uid pws).completions = db.completions := by
  refine ⟨?_, rfl, settle_user_completions db uid pws⟩
  intro h
  unfold mark_done at h
  by_cases hc : completionExists db.completions tid d
  · rw [if_pos hc] at h
    simp only [Option.some.injEq, Prod.mk.injEq] at h
    obtain ⟨-, rfl⟩ := h
    exact hinv
  · rw [if_neg hc] at h
    rcases hft : find_task db.tasks tid with _ | t
    · rw [hft] at h
      simp at h
    · rw [hft] at h
      simp only [Option.some.injEq, Prod.mk.injEq] at h
      obtain ⟨-, rfl⟩ := h
      rw [List.map_append, List.nodup_append]
      refine ⟨hinv, List.nodup_singleton _, ?_⟩
      intro a ha hb
      simp only [List.map_cons, List.map_nil, List.mem_singleton] at hb
      subst hb
      rcases List.mem_map.mp ha with ⟨c, hcmem, hceq⟩
      have hex : completionExists db.completions tid d = true := by
        unfold completionExists
        rw [List.any_eq_true]
        refine ⟨c, hcmem, ?_⟩
        have h1 : c.task_id = tid := congrArg Prod.fst hceq
        have h2 : c.done_date = d := congrArg Prod.snd hceq
        simp [h1, h2]
      exact absurd hex (by simpa using hc)

/-- Witness for C9: marking task 1 done on day 2 from the empty-completions
sample store yields `dbWdone`, whose completions are duplicate-free. -/
theorem completions_unique_invariant_witness :
    (dbWdone.completions.map fun c => (c.task_id, c.done_date)).Nodup :=
  (completions_unique_invariant dbW 1 1 2 0 MarkDoneResult.Awarded dbWdone
    (by decide)).1 (by decide)

/-- Claim C10: `iso_week_monday` lands on a Monday (ISO weekday 1), satisfies
`iso_week_monday d ≤ d ≤ iso_week_monday d + 6`, and is idempotent; any date
inside the settlement's previous week `[iso_week_monday (today - 7), .. + 6]`
has exactly that Monday as its own week start — hence the +10 completion
award of `mark_done` (keyed by `iso_week_monday` of the completion date) and
the settlement bonus upsert (keyed by `prev_week_start`) land on the same
leaderboard row, as the final conjunct exhibits on `mark_done` itself. -/
theorem iso_week_monday_props (d today : Int) (db : DB) (tid : Nat) (t : TaskRow) :
    isoweekday (iso_week_monday d) = 1 ∧
    iso_week_monday d ≤ d ∧ d ≤ iso_week_monday d + 6 ∧
    iso_week_monday (iso_week_monday d) = iso_week_monday d ∧
    (iso_week_monday (today - 7) ≤ d → d ≤ iso_week_monday (today - 7) + 6 →
        iso_week_monday d = iso_week_monday (today - 7)) ∧
    (find_task db.tasks tid = some t →
      completionExists db.completions tid d = false →
      iso_week_monday (today - 7) ≤ d →
      d ≤ iso_week_monday (today - 7) + 6 →
      ∃ db1 : DB,
        mark_done db tid d = some (MarkDoneResult.Awarded, db1) ∧
        lb_points db1.leaderboard t.user_id (iso_week_monday (today - 7))
          = lb_points db.leaderboard t.user_id (iso_week_monday (today - 7)) + 10) := by
  refine ⟨?_, ?_, ?_, ?_, ?_, ?_⟩
  · unfold iso_week_monday isoweekday
    omega
  · unfold iso_week_monday isoweekday
    omega
  · unfold iso_week_monday isoweekday
    omega
  · unfold iso_week_monday isoweekday
    omega
  · intro h1 h2
    unfold iso_week_monday isoweekday at h1 h2 ⊢
    omega
  · intro hf hn h1 h2
    have hkey : iso_week_monday d = iso_week_monday (today - 7) := by
      unfold iso_week_monday isoweekday at h1 h2 ⊢
      omega
    refine ⟨_, mark_done_fresh db tid d t hf hn, ?_⟩
    rw [← hkey]
    exact lb_points_upsert db.leaderboard t.user_id (iso_week_monday d) 10

/-- Witness for C10 at concrete inputs: today = 9, completion date d = 2; the
previous week starts at `iso_week_monday (9 - 7) = 0`, and marking task 1 of
the sample store done on day 2 adds its 10 points on exactly that row. -/
theorem iso_week_monday_props_witness :
    ∃ db1 : DB,
      mark_done dbW 1 2 = some (MarkDoneResult.Awarded, db1) ∧
      lb_points db1.leaderboard tW.user_id (iso_week_monday (9 - 7))
        = lb_points dbW.leaderboard tW.user_id (iso_week_monday (9 - 7)) + 10 :=
  (iso_week_monday_props 2 9 dbW 1 tW).2.2.2.2.2 rfl rfl (by decide) (by decide)
